import Mathlib

/-
Verification of the WeWorkEmail plugin (src/plugins/qymail/__init__.py):
a shallow embedding of its operations (check_email, send_email,
get_recent_emails, _parse_email_content, get_page, init_plugin,
stop_service) and theorems about the specified properties.

External effects (the IMAP server, the SMTP endpoint, the scheduler) are
modelled as explicit environment values describing the outcome of each
library call; Python exceptions are modelled with an explicit Outcome /
Except channel, and the try/except and with-statement structure of the
source is reproduced step by step.
-/

namespace WeWorkEmail

/-- One part of a (possibly multipart) MIME message, as seen by
`msg.walk()`: its content type and its payload after
`get_payload(decode=True)` followed by `.decode()`. `none` models bytes
on which `.decode()` raises `UnicodeDecodeError`. -/
structure MsgPart where
  contentType : String
  payload : Option (List Char)

/-- A parsed email message: either non-multipart (a single payload,
decoded regardless of its content type, as the source's else-branch does)
or multipart (the list of parts that `walk()` yields). -/
inductive EmailMessage where
  | single (contentType : String) (payload : Option (List Char))
  | multipart (parts : List MsgPart)

/-- The three-character truncation suffix appended at the end of
`_parse_email_content` (source line 162: `content[:500] + "..."`). -/
def dots : List Char := ['.', '.', '.']

/-- The multipart loop of `_parse_email_content` (lines 155-159):
concatenate the decoded payload of every `text/plain` part, raising
(as `Except.error`) at the first part whose bytes fail to decode. -/
def extractMultipart : List MsgPart → Except String (List Char)
  | [] => Except.ok []
  | p :: rest =>
    if p.contentType = "text/plain" then
      match p.payload with
      | none => Except.error "UnicodeDecodeError"
      | some s => (extractMultipart rest).map (fun t => s ++ t)
    else
      extractMultipart rest

/-- The content accumulated by `_parse_email_content` before truncation:
multipart messages go through the `walk()` loop, non-multipart messages
decode their whole payload whatever its content type (line 161). -/
def extractContent : EmailMessage → Except String (List Char)
  | EmailMessage.multipart parts => extractMultipart parts
  | EmailMessage.single _ payload =>
    match payload with
    | none => Except.error "UnicodeDecodeError"
    | some s => Except.ok s

/-- `WeWorkEmail._parse_email_content` (lines 152-162): extract the
content and return its first 500 characters with `"..."` appended. -/
def parse_email_content (m : EmailMessage) : Except String (List Char) :=
  (extractContent m).map (fun c => c.take 500 ++ dots)

/-- Spec-side description of the multipart extraction: the concatenation
of the payloads of the `text/plain` parts, in order. Used to compare the
source's loop with the specified behaviour. -/
def plainConcat (parts : List MsgPart) : List Char :=
  ((parts.filter (fun p => p.contentType = "text/plain")).map
    (fun p => p.payload.getD [])).flatten

/-- A fetched raw email, as produced by `email.message_from_bytes`: the
raw `From`, `Subject` and `Date` header strings (the compat32 policy of
the mail library returns header values as stored, RFC 2047 encoded words
included) and the message body tree. -/
structure RawEmail where
  fromHeader : String
  subjectHeader : String
  dateHeader : String
  body : EmailMessage

/-- The dict appended to `emails` in `get_recent_emails` (lines 141-146):
the raw `From`/`Subject`/`Date` header strings and the parsed content. -/
structure EmailInfo where
  sender : String
  subject : String
  date : String
  content : List Char
deriving DecidableEq

/-- One message of the mailbox: its server-side Seen flag and the mail
itself. -/
structure MailMsg where
  seen : Bool
  mail : RawEmail

/-- The IMAP INBOX state: the messages in mailbox (ascending sequence
number, oldest first — the order in which `search(None, 'ALL')` lists
them). -/
structure Mailbox where
  msgs : List MailMsg

/-- The number of messages `search(None, 'UNSEEN')` reports. -/
def unseenCount (b : Mailbox) : Nat :=
  (b.msgs.filter (fun m => !m.seen)).length

/-- Outcome of the IMAP connection phase shared by `check_email` and
`get_recent_emails`: the constructor `IMAP4_SSL(...)`, `login`, `select`
may each raise, and `search` may return a status other than OK. -/
inductive ImapEnv where
  | connectErr (m : String)
  | loginErr (m : String)
  | selectErr (m : String)
  | searchNotOk
  | ok
deriving DecidableEq

/-- Outcome of `imap.fetch(num, '(RFC822)')` for one message identifier:
a successful fetch of the raw email, a reply with a status other than OK,
or a raised exception. -/
inductive FetchOutcome where
  | fetched (e : RawEmail)
  | badStatus
  | exn (m : String)

/-- Whether a Python call completed normally or raised. -/
inductive Outcome where
  | normal
  | raised (m : String)
deriving DecidableEq

/-- The log line of `check_email`'s except-branch (line 94). -/
def checkFailLog (m : String) : String := "检查邮件失败: " ++ m

/-- The log line of `get_recent_emails`'s except-branch (line 149). -/
def fetchFailLog (m : String) : String := "获取邮件失败: " ++ m

/-- Result of one run of `check_email`: the mailbox afterwards, the
notification counts sent, the log, whether the IMAP connection was
acquired and released, and whether the run raised. -/
structure CheckResult where
  box : Mailbox
  notifications : List Nat
  log : List String
  acquired : Bool
  released : Bool
  outcome : Outcome

/-- The body of `check_email`'s try-block (lines 81-92), with the
with-statement semantics made explicit: the connection counts as acquired
once `IMAP4_SSL` returns, and the with-block releases it on every exit,
normal or raised. On a successful search the unseen messages are only
counted — no fetch and no flag store is issued, so the mailbox is
returned unchanged — and a notification is sent when the count is
positive. -/
def check_email_body (env : ImapEnv) (b : Mailbox) : CheckResult :=
  match env with
  | ImapEnv.connectErr m => ⟨b, [], [], false, false, Outcome.raised m⟩
  | ImapEnv.loginErr m => ⟨b, [], [], true, true, Outcome.raised m⟩
  | ImapEnv.selectErr m => ⟨b, [], [], true, true, Outcome.raised m⟩
  | ImapEnv.searchNotOk => ⟨b, [], [], true, true, Outcome.normal⟩
  | ImapEnv.ok =>
    let n := unseenCount b
    ⟨b, if n > 0 then [n] else [], [], true, true, Outcome.normal⟩

/-- `WeWorkEmail.check_email` (lines 78-94): the try-body wrapped in
`except Exception`, which logs the failure and returns normally. -/
def check_email (env : ImapEnv) (b : Mailbox) : CheckResult :=
  let r := check_email_body env b
  match r.outcome with
  | Outcome.raised m =>
    { r with outcome := Outcome.normal, log := r.log ++ [checkFailLog m] }
  | Outcome.normal => r

/-- The per-message loop of `get_recent_emails` (lines 135-147), run on
the fetch outcomes of the selected identifiers in order. A fetch whose
reply status is not OK fails the `if status == 'OK'` test and is skipped
silently. A successful fetch is parsed; `_parse_email_content` may raise
(its `.decode()` calls), and there is no per-message try, so a raised
exception — from `fetch` or from parsing — aborts the rest of the loop.
Returns the infos collected before any abort, and the message of the
aborting exception if one was raised. -/
def processFetches : List FetchOutcome → List EmailInfo × Option String
  | [] => ([], none)
  | FetchOutcome.fetched e :: rest =>
    match parse_email_content e.body with
    | Except.error m => ([], some m)
    | Except.ok c =>
      let r := processFetches rest
      (⟨e.fromHeader, e.subjectHeader, e.dateHeader, c⟩ :: r.1, r.2)
  | FetchOutcome.badStatus :: rest => processFetches rest
  | FetchOutcome.exn m :: _ => ([], some m)

/-- Result of one run of `get_recent_emails`. -/
structure GetResult where
  emails : List EmailInfo
  log : List String
  acquired : Bool
  released : Bool
  outcome : Outcome

/-- `WeWorkEmail.get_recent_emails` (lines 125-150): connect, login,
select, `search(None, 'ALL')`, then fetch and parse the first `limit`
identifiers (lines 135: `messages[0].split()[:limit]`). `fetches` lists
the fetch outcome of each mailbox message in ascending (oldest-first)
order. The whole try-body is wrapped in `except Exception`, which logs
and falls through to `return emails`, so the function itself never
raises and returns whatever was collected before a failure. -/
def get_recent_emails (env : ImapEnv) (fetches : List FetchOutcome)
    (limit : Nat) : GetResult :=
  match env with
  | ImapEnv.connectErr m => ⟨[], [fetchFailLog m], false, false, Outcome.normal⟩
  | ImapEnv.loginErr m => ⟨[], [fetchFailLog m], true, true, Outcome.normal⟩
  | ImapEnv.selectErr m => ⟨[], [fetchFailLog m], true, true, Outcome.normal⟩
  | ImapEnv.searchNotOk => ⟨[], [], true, true, Outcome.normal⟩
  | ImapEnv.ok =>
    let p := processFetches (fetches.take limit)
    ⟨p.1,
     match p.2 with
     | some m => [fetchFailLog m]
     | none => [],
     true, true, Outcome.normal⟩

/-- One `tr` row of the table built by `get_page` (lines 243-262): the
sender, subject and date cells rendered for one email. -/
structure PageRow where
  sender : String
  subject : String
  date : String
deriving DecidableEq

/-- `WeWorkEmail.get_page` (lines 238-297): calls
`get_recent_emails()` with its default `limit=20` and renders one row per
returned email, in order. -/
def get_page (env : ImapEnv) (fetches : List FetchOutcome) : List PageRow :=
  ((get_recent_emails env fetches 20).emails).map
    (fun i => ⟨i.sender, i.subject, i.date⟩)

/-- The email info that `get_recent_emails` builds for a message whose
fetch and parse succeed. -/
def infoOf (e : RawEmail) : EmailInfo :=
  ⟨e.fromHeader, e.subjectHeader, e.dateHeader,
   (parse_email_content e.body).toOption.getD []⟩

/-- A message whose body parses without raising. -/
def parseable (e : RawEmail) : Prop :=
  (parse_email_content e.body).isOk = true

instance (e : RawEmail) : Decidable (parseable e) := by
  unfold parseable
  infer_instance

/-- Value of a hexadecimal digit, for quoted-printable decoding; the
bounds are the code points of 0-9, A-F and a-f. -/
def hexVal (c : Char) : Option Nat :=
  let n := c.toNat
  if 48 ≤ n ∧ n ≤ 57 then some (n - 48)
  else if 65 ≤ n ∧ n ≤ 70 then some (n - 55)
  else if 97 ≤ n ∧ n ≤ 102 then some (n - 87)
  else none

/-- Modelled from the spec: the Q (quoted-printable) decoding step of
the mail-header encoding standard — an underscore stands for a space and
an equals sign introduces two hex digits. This decoding lives in the
mail library (`email.header.decode_header`), which the plugin never
calls; it is modelled here only to state what decoding would produce. -/
def qDecode : List Char → List Char
  | [] => []
  | '_' :: rest => ' ' :: qDecode rest
  | '=' :: h :: l :: rest =>
    match hexVal h, hexVal l with
    | some a, some b => Char.ofNat (16 * a + b) :: qDecode rest
    | _, _ => '=' :: qDecode (h :: l :: rest)
  | c :: rest => c :: qDecode rest

/-- Split a character list at every occurrence of a separator. -/
def splitChar (sep : Char) : List Char → List (List Char)
  | [] => [[]]
  | c :: rest =>
    let r := splitChar sep rest
    if c = sep then [] :: r
    else
      match r with
      | [] => [[c]]
      | h :: t => (c :: h) :: t

/-- Modelled from the spec: decoding of a mail header that may be an
RFC 2047 encoded word, restricted to the Q-encoded form
`=?charset?Q?text?=`; any other string is already plain and returned
as is. The plugin's `get_recent_emails` never applies this. -/
def decodeHeaderModel (s : String) : String :=
  match splitChar '?' s.data with
  | [['='], _charset, enc, payload, ['=']] =>
    if enc = ['Q'] ∨ enc = ['q'] then String.mk (qDecode payload) else s
  | _ => s

/-- An attachment passed to `send_email`: the `name` and `content`
entries of one attachment dict. -/
structure Attachment where
  name : String
  content : String

/-- One part of the composed outgoing MIME message: its subtype, its
body, and the attachment filename when a Content-Disposition attachment
header was added. -/
structure MimePart where
  subtype : String
  body : String
  filename : Option String
deriving DecidableEq

/-- The outgoing MIME message composed by `send_email` (lines 99-114). -/
structure MimeMessage where
  sender : String
  recipient : String
  subject : String
  parts : List MimePart
deriving DecidableEq

/-- The message composition of `send_email`: an HTML body part
(line 103: `MIMEText(content, 'html')`) followed by one plain-text part
per attachment (lines 106-114, `MIMEText(file['content'])` with an
attachment disposition carrying `file['name']`). -/
def buildMessage (account toAddr subject content : String)
    (attachments : List Attachment) : MimeMessage :=
  ⟨account, toAddr, subject,
   ⟨"html", content, none⟩ ::
     attachments.map (fun f => ⟨"plain", f.content, some f.name⟩)⟩

/-- Outcome of the SMTP phase of `send_email`: the `SMTP_SSL`
constructor, `login` and `send_message` either all succeed or one of
them raises with message `m`. -/
inductive SmtpEnv where
  | ok
  | err (m : String)
deriving DecidableEq

/-- The dict returned by `send_email`: its `status` and `message`
entries. -/
structure SendResult where
  status : Bool
  message : String
deriving DecidableEq

/-- The success message of `send_email` (line 120). -/
def sendOkMsg : String := "邮件发送成功"

/-- The log line of `send_email`'s except-branch (line 122). -/
def sendFailLog (m : String) : String := "邮件发送失败: " ++ m

/-- Result of one run of `send_email`: the returned dict, the message
handed to `send_message` when transmission happened, and the log. The
function always returns a `SendResult`; there is no raised channel
because the whole body sits inside `try`/`except Exception` (lines
98-123). -/
structure SendOutcome where
  result : SendResult
  sent : Option MimeMessage
  log : List String
deriving DecidableEq

/-- `WeWorkEmail.send_email` (lines 96-123): compose the MIME message,
transmit it over SMTP, and return a status dict; any exception is caught,
logged, and converted to a dict whose `message` is `str(e)`. -/
def send_email (env : SmtpEnv) (account toAddr subject content : String)
    (attachments : List Attachment) : SendOutcome :=
  let msg := buildMessage account toAddr subject content attachments
  match env with
  | SmtpEnv.ok => ⟨⟨true, sendOkMsg⟩, some msg, []⟩
  | SmtpEnv.err m => ⟨⟨false, m⟩, none, [sendFailLog m]⟩

/-- The default cron expression of the plugin (line 48). -/
def cronDefault : String := "*/10 * * * *"

/-- The id of the scheduled check job (line 66). -/
def jobId : String := "wework_email_check"

/-- The state of a `BackgroundScheduler`: its registered job ids and
whether it was started. -/
structure Scheduler where
  jobs : List String
  running : Bool
deriving DecidableEq

/-- The mutable attributes of the plugin instance. -/
structure PluginState where
  enabled : Bool
  account : Option String
  password : Option String
  checkInterval : String
  scheduler : Option Scheduler
deriving DecidableEq

/-- A non-empty configuration dict: `config.get` of each key, `none`
when the key is missing. (`init_plugin`'s `if config:` treats `None` and
the empty dict alike; both are the `none` case of `Option ConfigData`.) -/
structure ConfigData where
  enabled : Option Bool
  account : Option String
  password : Option String
  checkInterval : Option String

/-- Calls issued to the scheduler, in order. -/
inductive SchedEvent where
  | removeAllJobs
  | shutdown
  | addJob (id : String)
  | start
deriving DecidableEq

/-- `WeWorkEmail.stop_service` (lines 299-304): when a scheduler exists,
remove its jobs, shut it down if running, and clear the field. -/
def stop_service (st : PluginState) : PluginState × List SchedEvent :=
  match st.scheduler with
  | none => (st, [])
  | some s =>
    ({ st with scheduler := none },
     SchedEvent.removeAllJobs ::
       (if s.running then [SchedEvent.shutdown] else []))

/-- The configuration assignments of `init_plugin` (lines 55-59), run
only when the config dict is truthy: `_enabled`, `_account`, `_password`
take `config.get(...)` (missing keys give `None`, collapsed here to
their falsy reading), `_check_interval` takes `config.get` with the cron
default. -/
def applyConfig (st : PluginState) : Option ConfigData → PluginState
  | none => st
  | some c =>
    { st with
      enabled := c.enabled.getD false,
      account := c.account,
      password := c.password,
      checkInterval := c.checkInterval.getD cronDefault }

/-- Python truthiness of an optional string attribute: `None` and the
empty string are falsy. -/
def truthyStr : Option String → Bool
  | none => false
  | some s => s != ""

/-- `WeWorkEmail._validate_config` (lines 71-76):
`all([self._account, self._password])`. -/
def validate_config (st : PluginState) : Bool :=
  truthyStr st.account && truthyStr st.password

/-- `WeWorkEmail.init_plugin` (lines 52-69): stop any existing
scheduler, apply the config, and when `_enabled` and the credentials are
truthy, create a fresh scheduler carrying exactly the one check job and
start it. -/
def init_plugin (st : PluginState) (config : Option ConfigData) :
    PluginState × List SchedEvent :=
  let r := stop_service st
  let st2 := applyConfig r.1 config
  if st2.enabled && validate_config st2 then
    ({ st2 with scheduler := some ⟨[jobId], true⟩ },
     r.2 ++ [SchedEvent.addJob jobId, SchedEvent.start])
  else
    (st2, r.2)

/-- A minimal parseable raw email used as concrete test data. -/
def sampleMail : RawEmail :=
  ⟨"alice@example.com", "s0", "d0",
   EmailMessage.single "text/plain" (some ['h', 'i'])⟩

/-- A mailbox holding one unseen message. -/
def mbOne : Mailbox := ⟨[⟨false, sampleMail⟩]⟩

/-- A raw email whose body fails to decode, so parsing it raises. -/
def badMail : RawEmail :=
  ⟨"bad@x", "sb", "db", EmailMessage.single "text/plain" none⟩

/-- Three parseable mails with distinct subjects, oldest first. -/
def mail1 : RawEmail :=
  ⟨"a1@x", "s1", "d1", EmailMessage.single "text/plain" (some [])⟩

/-- Second of the three concrete mails. -/
def mail2 : RawEmail :=
  ⟨"a2@x", "s2", "d2", EmailMessage.single "text/plain" (some [])⟩

/-- Third (newest) of the three concrete mails. -/
def mail3 : RawEmail :=
  ⟨"a3@x", "s3", "d3", EmailMessage.single "text/plain" (some [])⟩

/-- A raw subject that is an RFC 2047 Q-encoded word. -/
def cxRawSubject : String := "=?utf-8?Q?hi?="

/-- A mail whose Subject header is stored as an encoded word. -/
def cxMail : RawEmail :=
  ⟨"bob@x", cxRawSubject, "d", EmailMessage.single "text/plain" (some ['x'])⟩

/-- A plugin state with an old running scheduler and no credentials. -/
def st0 : PluginState :=
  ⟨false, none, none, cronDefault, some ⟨["old_job"], true⟩⟩

/-- A config dict enabling the plugin with credentials. -/
def cfg0 : ConfigData := ⟨some true, some "user@co", some "pw", none⟩

deriving instance DecidableEq for Except

/-- The multipart loop raises at the first `text/plain` part whose
bytes fail to decode, whatever comes after it. -/
theorem extractMultipart_error (pre post : List MsgPart)
    (h : ∀ p ∈ pre, p.contentType = "text/plain" → p.payload.isSome) :
    extractMultipart (pre ++ ⟨"text/plain", none⟩ :: post)
      = Except.error "UnicodeDecodeError" := by
  induction pre with
  | nil => simp [extractMultipart]
  | cons p rest ih =>
    have hrest : ∀ q ∈ rest, q.contentType = "text/plain" → q.payload.isSome :=
      fun q hq => h q (List.mem_cons_of_mem _ hq)
    by_cases hct : p.contentType = "text/plain"
    · have hpay := h p (List.mem_cons_self _ _) hct
      cases hp : p.payload with
      | none => rw [hp] at hpay; simp at hpay
      | some s => simp [extractMultipart, hct, hp, ih hrest, Except.map]
    · simp [extractMultipart, hct, ih hrest]

/-- The multipart loop returns exactly the concatenation of the
`text/plain` payloads whenever every `text/plain` part decodes. -/
theorem extractMultipart_ok (parts : List MsgPart)
    (h : ∀ p ∈ parts, p.contentType = "text/plain" → p.payload.isSome) :
    extractMultipart parts = Except.ok (plainConcat parts) := by
  induction parts with
  | nil => simp [extractMultipart, plainConcat]
  | cons p rest ih =>
    have hrest : ∀ q ∈ rest, q.contentType = "text/plain" → q.payload.isSome :=
      fun q hq => h q (List.mem_cons_of_mem _ hq)
    by_cases hct : p.contentType = "text/plain"
    · have hpay := h p (List.mem_cons_self _ _) hct
      cases hp : p.payload with
      | none => rw [hp] at hpay; simp at hpay
      | some s =>
        simp [extractMultipart, hct, hp, ih hrest, plainConcat, Except.map]
    · simp [extractMultipart, hct, ih hrest, plainConcat]

/-- Processing a run of successfully fetched, parseable messages
prepends their infos and leaves the handling of the remaining outcomes
unchanged. -/
theorem processFetches_append (pre : List RawEmail) (l : List FetchOutcome)
    (h : ∀ e ∈ pre, parseable e) :
    processFetches (pre.map FetchOutcome.fetched ++ l) =
      (pre.map infoOf ++ (processFetches l).1, (processFetches l).2) := by
  induction pre with
  | nil => simp
  | cons e pre ih =>
    have hp : parseable e := h e (List.mem_cons_self _ _)
    have hrest : ∀ x ∈ pre, parseable x := fun x hx => h x (List.mem_cons_of_mem _ hx)
    cases hq : parse_email_content e.body with
    | error m =>
      exact absurd hp (by simp [parseable, hq, Except.isOk, Except.toBool])
    | ok c =>
      simp [processFetches, hq, ih hrest, infoOf, Except.toOption]

/-- Unfolding equation of `get_recent_emails` in the successful
connection case. -/
theorem get_recent_emails_ok_eq (fetches : List FetchOutcome) (limit : Nat) :
    get_recent_emails ImapEnv.ok fetches limit =
      ⟨(processFetches (fetches.take limit)).1,
       match (processFetches (fetches.take limit)).2 with
       | some m => [fetchFailLog m]
       | none => [],
       true, true, Outcome.normal⟩ := rfl

/-- On a fully successful run over parseable messages,
`get_recent_emails` returns the infos of the first `limit` mailbox
messages and logs nothing. -/
theorem getRecent_ok_emails (msgs : List RawEmail) (limit : Nat)
    (h : ∀ e ∈ msgs, parseable e) :
    (get_recent_emails ImapEnv.ok (msgs.map FetchOutcome.fetched) limit).emails
      = (msgs.take limit).map infoOf ∧
    (get_recent_emails ImapEnv.ok (msgs.map FetchOutcome.fetched) limit).log = [] := by
  have htake : ∀ e ∈ msgs.take limit, parseable e :=
    fun e he => h e (List.take_subset _ _ he)
  have h1 : (msgs.map FetchOutcome.fetched).take limit
      = (msgs.take limit).map FetchOutcome.fetched := (List.map_take _ _ _).symm
  have h2 : processFetches ((msgs.take limit).map FetchOutcome.fetched)
      = ((msgs.take limit).map infoOf, none) := by
    have h3 := processFetches_append (msgs.take limit) [] htake
    simpa [processFetches] using h3
  refine ⟨?_, ?_⟩ <;> rw [get_recent_emails_ok_eq, h1, h2]

/-- C9: whenever `_parse_email_content` returns normally, its result is
the first 500 characters of the extracted content with the three
characters "..." appended, so it ends in "..." and has length at most
503, even when the extracted content is shorter than 500 characters or
empty. -/
theorem claim_C9_truncation (m : EmailMessage) (c : List Char)
    (h : parse_email_content m = Except.ok c) :
    (∃ raw, extractContent m = Except.ok raw ∧ c = raw.take 500 ++ dots) ∧
    (∃ p, c = p ++ dots) ∧ c.length ≤ 503 := by
  cases hq : extractContent m with
  | error e => simp [parse_email_content, hq, Except.map] at h
  | ok raw =>
    simp [parse_email_content, hq, Except.map] at h
    refine ⟨⟨raw, rfl, h.symm⟩, ⟨raw.take 500, h.symm⟩, ?_⟩
    have hlen : (raw.take 500).length ≤ 500 := by
      rw [List.length_take]; exact min_le_left _ _
    rw [← h]
    simp only [List.length_append, dots, List.length_cons, List.length_nil]
    omega

/-- C9 witness: a concrete two-character plain-text message. -/
theorem claim_C9_witness :
    (∃ raw, extractContent (EmailMessage.single "text/plain" (some ['h', 'i']))
        = Except.ok raw ∧ ['h', 'i', '.', '.', '.'] = raw.take 500 ++ dots) ∧
    (∃ p, ['h', 'i', '.', '.', '.'] = p ++ dots) ∧
    List.length ['h', 'i', '.', '.', '.'] ≤ 503 :=
  claim_C9_truncation (EmailMessage.single "text/plain" (some ['h', 'i']))
    ['h', 'i', '.', '.', '.'] (by decide)

/-- C4 counterexample: a multipart message with no `text/plain` part
yields "..." rather than the empty string; a message with two
`text/plain` parts yields their concatenation rather than the first
part alone; and a malformed (undecodable) `text/plain` payload makes
the function fail rather than return. -/
theorem claim_C4_counterexample :
    parse_email_content (EmailMessage.multipart [⟨"text/html", some ['a']⟩])
      = Except.ok dots ∧
    dots ≠ ([] : List Char) ∧
    parse_email_content (EmailMessage.multipart
        [⟨"text/plain", some ['a', 'b']⟩, ⟨"text/plain", some ['c', 'd']⟩])
      = Except.ok ['a', 'b', 'c', 'd', '.', '.', '.'] ∧
    (['a', 'b', 'c', 'd', '.', '.', '.'] : List Char) ≠ ['a', 'b', '.', '.', '.'] ∧
    parse_email_content (EmailMessage.multipart [⟨"text/plain", none⟩])
      = Except.error "UnicodeDecodeError" := by
  decide

/-- C4 amended: for a multipart message whose `text/plain` parts all
decode, `_parse_email_content` returns the concatenation of all
`text/plain` payloads truncated to 500 characters with "..." appended;
when no `text/plain` part exists this is exactly "...", not the empty
string; a non-multipart message contributes its whole payload
regardless of content type; and a payload whose bytes fail to decode
makes the function raise instead of returning, in the multipart and the
non-multipart case alike. -/
theorem claim_C4_amended (parts : List MsgPart)
    (h : ∀ p ∈ parts, p.contentType = "text/plain" → p.payload.isSome) :
    parse_email_content (EmailMessage.multipart parts)
      = Except.ok ((plainConcat parts).take 500 ++ dots) ∧
    (parts.filter (fun p => p.contentType = "text/plain") = [] →
      parse_email_content (EmailMessage.multipart parts) = Except.ok dots) ∧
    (∀ (ct : String) (s : List Char),
      parse_email_content (EmailMessage.single ct (some s))
        = Except.ok (s.take 500 ++ dots)) ∧
    (∀ (preParts postParts : List MsgPart),
      (∀ p ∈ preParts, p.contentType = "text/plain" → p.payload.isSome) →
      parse_email_content (EmailMessage.multipart
          (preParts ++ ⟨"text/plain", none⟩ :: postParts))
        = Except.error "UnicodeDecodeError") ∧
    ∀ (ct : String),
      parse_email_content (EmailMessage.single ct none)
        = Except.error "UnicodeDecodeError" := by
  have key := extractMultipart_ok parts h
  refine ⟨by simp [parse_email_content, extractContent, key, Except.map],
    ?_, ?_, ?_, ?_⟩
  · intro hf
    have hnil : plainConcat parts = [] := by simp [plainConcat, hf]
    simp [parse_email_content, extractContent, key, hnil, Except.map]
  · intro ct s
    simp [parse_email_content, extractContent, Except.map]
  · intro preParts postParts hpre
    have herr := extractMultipart_error preParts postParts hpre
    simp [parse_email_content, extractContent, herr, Except.map]
  · intro ct
    simp [parse_email_content, extractContent, Except.map]

/-- C4 witness: one decodable plain part succeeds; an undecodable plain
part after it makes the parse raise. -/
theorem claim_C4_witness :
    parse_email_content (EmailMessage.multipart [⟨"text/plain", some ['h', 'i']⟩])
      = Except.ok ((plainConcat [⟨"text/plain", some ['h', 'i']⟩]).take 500 ++ dots) ∧
    parse_email_content (EmailMessage.multipart
        [⟨"text/plain", some ['h', 'i']⟩, ⟨"text/plain", none⟩])
      = Except.error "UnicodeDecodeError" :=
  ⟨(claim_C4_amended [⟨"text/plain", some ['h', 'i']⟩] (by decide)).1,
   (claim_C4_amended [] (by decide)).2.2.2.1
     [⟨"text/plain", some ['h', 'i']⟩] [] (by decide)⟩

/-- C1 counterexample: a mailbox with one unseen message. A successful
run of `check_email` leaves the message unseen (the poll issues no fetch
and no flag store), so an immediately repeated poll finds the same
unseen message again — one, not zero — and notifies again. -/
theorem claim_C1_counterexample :
    (check_email ImapEnv.ok mbOne).box = mbOne ∧
    unseenCount (check_email ImapEnv.ok mbOne).box = 1 ∧
    unseenCount (check_email ImapEnv.ok mbOne).box ≠ 0 ∧
    (check_email ImapEnv.ok (check_email ImapEnv.ok mbOne).box).notifications = [1] :=
  ⟨rfl, by decide, by decide, by decide⟩

/-- C1 amended: `check_email` never fetches, parses or marks any
message; it leaves every message's Seen flag (and the whole mailbox)
unchanged and only sends one notification carrying the unseen count when
the poll succeeds and that count is positive, so an immediately repeated
poll finds exactly the same unseen messages. -/
theorem claim_C1_amended (env : ImapEnv) (b : Mailbox) :
    (check_email env b).box = b ∧
    unseenCount (check_email env b).box = unseenCount b ∧
    ((check_email env b).notifications ≠ [] ↔
      env = ImapEnv.ok ∧ 0 < unseenCount b) := by
  cases env <;> simp [check_email, check_email_body]
  by_cases h : 0 < unseenCount b
  · simp_all
    omega
  · simp_all

/-- C1 amended witness: the one-unseen-message mailbox notifies. -/
theorem claim_C1_witness :
    (check_email ImapEnv.ok mbOne).notifications ≠ [] :=
  (claim_C1_amended ImapEnv.ok mbOne).2.2.mpr ⟨rfl, by decide⟩

/-- C3: every failure of connect, login or select inside a poll is
caught by `check_email`'s top-level except-branch — the run always ends
with a normal outcome, the failure is logged, and the cycle ends early
with no notification and the mailbox untouched. -/
theorem claim_C3_poll_catches_all (env : ImapEnv) (b : Mailbox) :
    (check_email env b).outcome = Outcome.normal ∧
    ∀ m, (env = ImapEnv.connectErr m ∨ env = ImapEnv.loginErr m ∨
        env = ImapEnv.selectErr m) →
      (check_email env b).log = [checkFailLog m] ∧
      (check_email env b).notifications = [] ∧
      (check_email env b).box = b := by
  cases env <;> simp [check_email, check_email_body]

/-- C3 witness: a failing select is caught and logged. -/
theorem claim_C3_witness :
    (check_email (ImapEnv.selectErr "no inbox") mbOne).outcome = Outcome.normal ∧
    (check_email (ImapEnv.selectErr "no inbox") mbOne).log
      = [checkFailLog "no inbox"] ∧
    (check_email (ImapEnv.selectErr "no inbox") mbOne).notifications = [] := by
  have h := claim_C3_poll_catches_all (ImapEnv.selectErr "no inbox") mbOne
  exact ⟨h.1, (h.2 "no inbox" (Or.inr (Or.inr rfl))).1,
    (h.2 "no inbox" (Or.inr (Or.inr rfl))).2.1⟩

/-- C8: in both `check_email` and `get_recent_emails` the IMAP
connection is a with-scoped resource: whenever it was acquired, it is
released on every exit path, exceptional paths included. -/
theorem claim_C8_connection_released (env : ImapEnv) (b : Mailbox)
    (fetches : List FetchOutcome) (limit : Nat) :
    ((check_email env b).acquired = true → (check_email env b).released = true) ∧
    ((get_recent_emails env fetches limit).acquired = true →
      (get_recent_emails env fetches limit).released = true) := by
  cases env <;> simp [check_email, check_email_body, get_recent_emails]

/-- C8 witness: the successful-poll path releases the connection. -/
theorem claim_C8_witness :
    (check_email ImapEnv.ok mbOne).released = true ∧
    (get_recent_emails ImapEnv.ok [] 20).released = true :=
  ⟨(claim_C8_connection_released ImapEnv.ok mbOne [] 20).1 rfl,
   (claim_C8_connection_released ImapEnv.ok mbOne [] 20).2 rfl⟩

/-- C2 counterexample: when the SMTP phase raises an exception whose
text is empty, `send_email` returns a failure dict whose `message` is
the empty string, so the returned message is not non-empty on every
failure. -/
theorem claim_C2_counterexample :
    (send_email (SmtpEnv.err "") "a@x" "b@x" "s" "c" []).result.status = false ∧
    (send_email (SmtpEnv.err "") "a@x" "b@x" "s" "c" []).result.message = "" :=
  ⟨rfl, rfl⟩

/-- C2 amended: `send_email` never raises past its own boundary — it is
a total function into a result dict. On success it returns the success
dict and transmits exactly the composed MIME message; on any failure it
returns a failure dict whose `message` is the raised exception's text,
which is non-empty exactly when that text is non-empty. -/
theorem claim_C2_amended (env : SmtpEnv) (account toAddr subject content : String)
    (attachments : List Attachment) :
    (env = SmtpEnv.ok →
      send_email env account toAddr subject content attachments =
        ⟨⟨true, sendOkMsg⟩,
         some (buildMessage account toAddr subject content attachments), []⟩) ∧
    (∀ m, env = SmtpEnv.err m →
      (send_email env account toAddr subject content attachments).result
          = ⟨false, m⟩ ∧
      (send_email env account toAddr subject content attachments).sent = none ∧
      (m ≠ "" →
        (send_email env account toAddr subject content attachments).result.message
          ≠ "")) := by
  cases env <;> simp [send_email]

/-- C2 witness: a reachable endpoint returns the success dict; an
unreachable endpoint's exception text is passed through. -/
theorem claim_C2_witness :
    send_email SmtpEnv.ok "a@x" "b@x" "s" "c" [] =
      ⟨⟨true, sendOkMsg⟩, some (buildMessage "a@x" "b@x" "s" "c" []), []⟩ ∧
    (send_email (SmtpEnv.err "Connection refused") "a@x" "b@x" "s" "c" []).result
      = ⟨false, "Connection refused"⟩ := by
  have h1 := claim_C2_amended SmtpEnv.ok "a@x" "b@x" "s" "c" []
  have h2 := claim_C2_amended (SmtpEnv.err "Connection refused") "a@x" "b@x" "s" "c" []
  exact ⟨h1.1 rfl, (h2.2 "Connection refused" rfl).1⟩

/-- C5 counterexample: a message whose Subject header is stored as an
RFC 2047 Q-encoded word is returned by `get_recent_emails` still
encoded: the subject field is the raw header string, not the decoded
Unicode string the declared charset yields. -/
theorem claim_C5_counterexample :
    ((get_recent_emails ImapEnv.ok [FetchOutcome.fetched cxMail] 20).emails).map
        (fun i => i.subject) = [cxRawSubject] ∧
    decodeHeaderModel cxRawSubject = "hi" ∧
    cxRawSubject ≠ "hi" := by
  decide

/-- C5 amended: the Subject and From fields of every returned email are
the raw header strings exactly as fetched — no header decoding is
applied, whatever charset the header declares. -/
theorem claim_C5_amended (msgs : List RawEmail) (limit : Nat)
    (h : ∀ e ∈ msgs, parseable e) :
    ((get_recent_emails ImapEnv.ok (msgs.map FetchOutcome.fetched) limit).emails).map
        (fun i => i.subject) = (msgs.take limit).map (fun e => e.subjectHeader) ∧
    ((get_recent_emails ImapEnv.ok (msgs.map FetchOutcome.fetched) limit).emails).map
        (fun i => i.sender) = (msgs.take limit).map (fun e => e.fromHeader) := by
  rw [(getRecent_ok_emails msgs limit h).1]
  constructor <;> (rw [List.map_map]; rfl)

/-- C5 amended witness: the encoded-word subject is passed through. -/
theorem claim_C5_witness :
    ((get_recent_emails ImapEnv.ok ([cxMail].map FetchOutcome.fetched) 20).emails).map
        (fun i => i.subject) = ([cxMail].take 20).map (fun e => e.subjectHeader) :=
  (claim_C5_amended [cxMail] 20 (by decide)).1

/-- C6 counterexample: a batch of two identifiers in which the first
fetch raises. The exception aborts the whole loop: the second, healthy
message is not processed, so the result is empty rather than holding
the other N−1 = 1 message. -/
theorem claim_C6_counterexample :
    (get_recent_emails ImapEnv.ok
        [FetchOutcome.exn "boom", FetchOutcome.fetched sampleMail] 2).emails = [] ∧
    [infoOf sampleMail] ≠ ([] : List EmailInfo) := by
  refine ⟨rfl, by simp⟩

/-- C6 amended: a fetch that merely returns a non-OK status is skipped
and the remaining messages are processed, and it leaves no log entry of
its own (the run's log equals the log of the same run without that
entry); but a fetch that raises an exception, or a fetched message
whose parsing raises, aborts the rest of the batch — the exception is
caught and logged only by the top-level handler, and exactly the
messages collected before it are returned. -/
theorem claim_C6_amended (pre : List RawEmail) (rest : List FetchOutcome) (m : String)
    (h : ∀ e ∈ pre, parseable e) :
    ((get_recent_emails ImapEnv.ok
        (pre.map FetchOutcome.fetched ++ FetchOutcome.exn m :: rest)
        (pre.map FetchOutcome.fetched ++ FetchOutcome.exn m :: rest).length).emails
      = pre.map infoOf ∧
     (get_recent_emails ImapEnv.ok
        (pre.map FetchOutcome.fetched ++ FetchOutcome.exn m :: rest)
        (pre.map FetchOutcome.fetched ++ FetchOutcome.exn m :: rest).length).log
      = [fetchFailLog m]) ∧
    (∀ (u : RawEmail) (em : String),
      parse_email_content u.body = Except.error em →
      (get_recent_emails ImapEnv.ok
          (pre.map FetchOutcome.fetched ++ FetchOutcome.fetched u :: rest)
          (pre.map FetchOutcome.fetched ++ FetchOutcome.fetched u :: rest).length).emails
        = pre.map infoOf ∧
      (get_recent_emails ImapEnv.ok
          (pre.map FetchOutcome.fetched ++ FetchOutcome.fetched u :: rest)
          (pre.map FetchOutcome.fetched ++ FetchOutcome.fetched u :: rest).length).log
        = [fetchFailLog em]) ∧
    ((get_recent_emails ImapEnv.ok
        (pre.map FetchOutcome.fetched ++ FetchOutcome.badStatus :: rest)
        (pre.map FetchOutcome.fetched ++ FetchOutcome.badStatus :: rest).length).emails
      = (get_recent_emails ImapEnv.ok (pre.map FetchOutcome.fetched ++ rest)
          (pre.map FetchOutcome.fetched ++ rest).length).emails ∧
     (get_recent_emails ImapEnv.ok
        (pre.map FetchOutcome.fetched ++ FetchOutcome.badStatus :: rest)
        (pre.map FetchOutcome.fetched ++ FetchOutcome.badStatus :: rest).length).log
      = (get_recent_emails ImapEnv.ok (pre.map FetchOutcome.fetched ++ rest)
          (pre.map FetchOutcome.fetched ++ rest).length).log) := by
  have hexn := processFetches_append pre (FetchOutcome.exn m :: rest) h
  have hbad := processFetches_append pre (FetchOutcome.badStatus :: rest) h
  have hplain := processFetches_append pre rest h
  refine ⟨⟨?_, ?_⟩, ?_, ?_, ?_⟩
  · rw [get_recent_emails_ok_eq, List.take_length, hexn]
    simp [processFetches]
  · rw [get_recent_emails_ok_eq, List.take_length, hexn]
    simp [processFetches]
  · intro u em hu
    have hfu := processFetches_append pre (FetchOutcome.fetched u :: rest) h
    refine ⟨?_, ?_⟩ <;>
      (rw [get_recent_emails_ok_eq, List.take_length, hfu]
       simp [processFetches, hu])
  · rw [get_recent_emails_ok_eq, List.take_length, hbad,
      get_recent_emails_ok_eq, List.take_length, hplain]
    simp [processFetches]
  · rw [get_recent_emails_ok_eq, List.take_length, hbad,
      get_recent_emails_ok_eq, List.take_length, hplain]
    simp [processFetches]

/-- C6 amended witness: one good message before a raising fetch — and
before a message whose parse raises — is returned; everything after the
raise is dropped. -/
theorem claim_C6_witness :
    (get_recent_emails ImapEnv.ok
        ([sampleMail].map FetchOutcome.fetched ++ FetchOutcome.exn "gone" :: [])
        ([sampleMail].map FetchOutcome.fetched ++ FetchOutcome.exn "gone" :: []).length).emails
      = [sampleMail].map infoOf ∧
    (get_recent_emails ImapEnv.ok
        ([sampleMail].map FetchOutcome.fetched ++ FetchOutcome.fetched badMail :: [])
        ([sampleMail].map FetchOutcome.fetched ++ FetchOutcome.fetched badMail :: []).length).emails
      = [sampleMail].map infoOf :=
  ⟨(claim_C6_amended [sampleMail] [] "gone" (by decide)).1.1,
   ((claim_C6_amended [sampleMail] [] "unused" (by decide)).2.1 badMail
     "UnicodeDecodeError" (by decide)).1⟩

/-- C7 counterexample: a mailbox of three messages (oldest first) read
with limit 2 yields the two oldest subjects, not the two most recent in
either order. -/
theorem claim_C7_counterexample :
    ((get_recent_emails ImapEnv.ok
        [FetchOutcome.fetched mail1, FetchOutcome.fetched mail2,
         FetchOutcome.fetched mail3] 2).emails).map (fun i => i.subject)
      = ["s1", "s2"] ∧
    (["s1", "s2"] : List String) ≠ ["s2", "s3"] ∧
    (["s1", "s2"] : List String) ≠ ["s3", "s2"] := by
  decide

/-- C7 amended: `get_recent_emails` returns the first `limit` messages
in mailbox (ascending, oldest-first) order — the oldest N, not the most
recent N — and `get_page` renders exactly those rows for its default
limit of 20. -/
theorem claim_C7_amended (msgs : List RawEmail) (limit : Nat)
    (h : ∀ e ∈ msgs, parseable e) :
    (get_recent_emails ImapEnv.ok (msgs.map FetchOutcome.fetched) limit).emails
      = (msgs.take limit).map infoOf ∧
    get_page ImapEnv.ok (msgs.map FetchOutcome.fetched)
      = ((msgs.take 20).map infoOf).map
          (fun i => PageRow.mk i.sender i.subject i.date) := by
  refine ⟨(getRecent_ok_emails msgs limit h).1, ?_⟩
  simp [get_page, (getRecent_ok_emails msgs 20 h).1]

/-- C7 amended witness: the three-message mailbox at limit 2. -/
theorem claim_C7_witness :
    (get_recent_emails ImapEnv.ok
        ([mail1, mail2, mail3].map FetchOutcome.fetched) 2).emails
      = ([mail1, mail2, mail3].take 2).map infoOf :=
  (claim_C7_amended [mail1, mail2, mail3] 2 (by decide)).1

/-- The scheduler field is cleared by `stop_service` and untouched by
the config assignments. -/
theorem applyConfig_stop_scheduler (st : PluginState) (config : Option ConfigData) :
    (applyConfig (stop_service st).1 config).scheduler = none := by
  cases config <;> cases hs : st.scheduler <;> simp [applyConfig, stop_service, hs]

/-- C10: `init_plugin` first stops and clears any existing scheduler
(every run's scheduler calls start with the stop_service calls, so no
duplicate check job accumulates), and it registers and starts a fresh
scheduler holding exactly the one check job if and only if the enabled
flag in effect is true and both the account and the password in effect
are non-empty; otherwise the scheduler field stays `None` and no job
call is issued. -/
theorem claim_C10_init_scheduler (st : PluginState) (config : Option ConfigData) :
    (∃ tail, (init_plugin st config).2 = (stop_service st).2 ++ tail) ∧
    ((init_plugin st config).1.scheduler ≠ none ↔
      ((init_plugin st config).1.enabled = true ∧
       truthyStr (init_plugin st config).1.account = true ∧
       truthyStr (init_plugin st config).1.password = true)) ∧
    (∀ s, (init_plugin st config).1.scheduler = some s →
      s = ⟨[jobId], true⟩ ∧
      (init_plugin st config).2 =
        (stop_service st).2 ++ [SchedEvent.addJob jobId, SchedEvent.start]) ∧
    ((init_plugin st config).1.scheduler = none →
      (init_plugin st config).2 = (stop_service st).2) := by
  have hsch := applyConfig_stop_scheduler st config
  cases hb : (applyConfig (stop_service st).1 config).enabled
      && validate_config (applyConfig (stop_service st).1 config) with
  | false =>
    have hinit : init_plugin st config
        = (applyConfig (stop_service st).1 config, (stop_service st).2) := by
      simp [init_plugin, hb]
    rw [hinit]
    simp only [Bool.and_eq_false_iff] at hb
    refine ⟨⟨[], by simp⟩, ?_, ?_, fun _ => rfl⟩
    · simp only [hsch, ne_eq, not_true_eq_false, false_iff, validate_config,
        Bool.and_eq_true] at hb ⊢
      rcases hb with hb | hb
      · rintro ⟨h1, -, -⟩; rw [h1] at hb; exact absurd hb (by simp)
      · rw [Bool.and_eq_false_iff] at hb
        rintro ⟨-, h2, h3⟩
        rcases hb with hb | hb
        · rw [h2] at hb; exact absurd hb (by simp)
        · rw [h3] at hb; exact absurd hb (by simp)
    · intro s hs
      rw [hsch] at hs
      cases hs
  | true =>
    have hinit : init_plugin st config
        = ({ applyConfig (stop_service st).1 config with
              scheduler := some ⟨[jobId], true⟩ },
           (stop_service st).2 ++ [SchedEvent.addJob jobId, SchedEvent.start]) := by
      simp [init_plugin, hb]
    rw [hinit]
    simp only [Bool.and_eq_true, validate_config] at hb
    refine ⟨⟨[SchedEvent.addJob jobId, SchedEvent.start], rfl⟩, ?_, ?_, ?_⟩
    · simp [hb.1, hb.2.1, hb.2.2]
    · intro s hs
      cases hs
      exact ⟨rfl, rfl⟩
    · intro hs
      cases hs

/-- C10 witness: a state with an old running scheduler re-initialised
with an enabling config gets a fresh scheduler, and the stop calls come
first. -/
theorem claim_C10_witness :
    (init_plugin st0 (some cfg0)).1.scheduler ≠ none ∧
    (∃ tail, (init_plugin st0 (some cfg0)).2 = (stop_service st0).2 ++ tail) := by
  have h := claim_C10_init_scheduler st0 (some cfg0)
  exact ⟨h.2.1.mpr ⟨by decide, by decide, by decide⟩, h.1⟩

end WeWorkEmail
